import Mathlib

/-!
Shallow embedding of the `todo` CLI task manager (`src/todo/src/lib.rs`,
`src/todo/src/main.rs`).

The program keeps one SQLite table
  tasks(id INTEGER PRIMARY KEY AUTOINCREMENT, name TEXT NOT NULL,
        date_added TEXT NOT NULL DEFAULT current_timestamp,
        is_done INTEGER NOT NULL DEFAULT 0)
plus SQLite's `sqlite_sequence` counter row for `tasks`.  A table state is
modelled as a `Store`: the list of rows together with the recorded sequence
value (0 when the `sqlite_sequence` row is absent, as after `reset`).
SQLite INTEGER values are modelled as `Int`; the `date_added` timestamp the
engine would generate is passed in as an explicit `now : String` argument.
-/

namespace Todo

/-- One row of the `tasks` table (struct `Task` in `lib.rs`). -/
structure Task where
  id : Int
  name : String
  date_added : String
  is_done : Int
deriving Repr, DecidableEq

/-- The persistent state: the `tasks` table rows plus the `sqlite_sequence`
value for `tasks` (0 when that bookkeeping row does not exist). -/
structure Store where
  rows : List Task
  seq : Int
deriving Repr, DecidableEq

/-- Largest rowid currently in the table, or 0 for an empty table
(SQLite never picks an AUTOINCREMENT id below 1). -/
def maxId (rows : List Task) : Int :=
  rows.foldl (fun m t => max m t.id) 0

/-- Result of a store operation that reports an affected-row count and
prints a line, as `Task::toggle` and `Task::rm` do. -/
structure OpResult where
  store : Store
  affected : Nat
  output : List String
deriving Repr, DecidableEq

namespace Task

/-- `Task::add`: `INSERT INTO tasks (name) VALUES (?)`.  AUTOINCREMENT
assigns an id one larger than the maximum of the recorded sequence value and
the largest rowid in the table, and records it in `sqlite_sequence`;
`is_done` defaults to 0 and `date_added` to the current timestamp `now`. -/
def add (s : Store) (name now : String) : Store :=
  let newId := max s.seq (maxId s.rows) + 1
  { rows := s.rows ++ [{ id := newId, name := name, date_added := now, is_done := 0 }],
    seq := newId }

/-- The comparison SQLite's `ORDER BY` clause uses in `Task::list`:
`ORDER BY is_done, id` when sorting by status, `ORDER BY id` otherwise. -/
def sqlLe (sort_by_status : Bool) (a b : Task) : Prop :=
  match sort_by_status with
  | true => a.is_done < b.is_done ∨ (a.is_done = b.is_done ∧ a.id ≤ b.id)
  | false => a.id ≤ b.id

instance (b : Bool) : DecidableRel (sqlLe b) := fun x y => by
  cases b <;> simp only [sqlLe] <;> infer_instance

instance (b : Bool) : IsTotal Task (sqlLe b) := by
  constructor; cases b <;> intro x y <;> simp only [sqlLe] <;> omega

instance (b : Bool) : IsTrans Task (sqlLe b) := by
  constructor; cases b <;> intro x y z <;> simp only [sqlLe] <;> omega

/-- `Task::list`: `SELECT * FROM tasks ORDER BY ...`, materialised into a
vector.  Modelled as a stable sort of the rows by the `ORDER BY` key. -/
def list (s : Store) (sort_by_status : Bool) : List Task :=
  List.insertionSort (sqlLe sort_by_status) s.rows

/-- `Task::toggle`: `UPDATE tasks SET is_done = 1 - is_done WHERE id = ?`,
then prints a not-found or success line from the affected-row count. -/
def toggle (s : Store) (id : Int) : OpResult :=
  let rows' := s.rows.map fun t =>
    if t.id = id then { t with is_done := 1 - t.is_done } else t
  let n := (s.rows.filter fun t => t.id = id).length
  { store := { s with rows := rows' },
    affected := n,
    output := [if n = 0 then "No task found with id: " ++ toString id
               else "Toggled task with id: " ++ toString id] }

/-- `Task::rm`: `DELETE FROM tasks WHERE id = ?`, then prints a not-found
or success line from the affected-row count. -/
def rm (s : Store) (id : Int) : OpResult :=
  let rows' := s.rows.filter fun t => t.id ≠ id
  let n := (s.rows.filter fun t => t.id = id).length
  { store := { s with rows := rows' },
    affected := n,
    output := [if n = 0 then "No task found with id: " ++ toString id
               else "Removed task with id: " ++ toString id] }

/-- `Task::reset`: `DELETE FROM tasks` followed by
`DELETE FROM sqlite_sequence WHERE name='tasks'`, which empties the table
and removes the counter row, so the next AUTOINCREMENT id is 1. -/
def reset (_s : Store) : Store :=
  { rows := [], seq := 0 }

end Task

/-! ### Byte-level model of Rust strings, for `truncate` -/

/-- Byte length of a Rust `&str` (`input.len()` counts UTF-8 bytes). -/
def utf8Len (l : List Char) : Nat :=
  (l.map Char.utf8Size).sum

/-- Rust byte slicing `&input[..n]`: the characters making up the first `n`
bytes, or `none` (a panic) when `n` exceeds the byte length or falls inside
a multi-byte character (not a char boundary). -/
def takeBytes : List Char → Nat → Option (List Char)
  | _, 0 => some []
  | [], _ + 1 => none
  | c :: cs, n + 1 =>
    if c.utf8Size ≤ n + 1 then (takeBytes cs (n + 1 - c.utf8Size)).map (c :: ·)
    else none

/-- Rust's `max as usize` conversion of an `i32` on a 64-bit target:
nonnegative values unchanged, negative values wrap modulo 2^64. -/
def i32AsUsize (max : Int) : Nat :=
  (max % (2 : Int) ^ 64).toNat

/-- `truncate` from `lib.rs`: returns the input unchanged when its byte
length is at most `max as usize`, otherwise slices the first `max_len - 3`
bytes and appends `"..."`.  `none` models a panic: the checked subtraction
`max_len - 3` underflowing (and in release mode the subsequent out-of-range
slice), or the slice index not being a character boundary. -/
def truncate (input : String) (max : Int) : Option String :=
  if utf8Len input.data > i32AsUsize max then
    if i32AsUsize max < 3 then none
    else (takeBytes input.data (i32AsUsize max - 3)).map
      fun pre => String.mk pre ++ "..."
  else some input

example : truncate "hello" 44 = some "hello" := by decide
example : truncate "abcdef" 5 = some "ab..." := by decide

/-! ### Presentation (`Task::print_list`)

The `console::style` colour wrappers decorate text for the terminal without
changing its content, so they are modelled as the identity on the text. -/

/-- Rust's `{:>width}` format padding: right-align with spaces. -/
def padLeft (s : String) (w : Nat) : String :=
  String.mk (List.replicate (w - s.length) ' ') ++ s

/-- Rust's `{:<width}` format padding: left-align with spaces. -/
def padRight (s : String) (w : Nat) : String :=
  s ++ String.mk (List.replicate (w - s.length) ' ')

/-- One output line of `Task::print_list`: the format string
`"{:>4} | {:<44} | {:<8} {}"` applied to the id, the truncated name, the
status label and the timestamp.  `none` when `truncate` panics. -/
def printLine (t : Task) : Option String :=
  (truncate t.name 44).map fun nm =>
    padLeft (toString t.id) 4 ++ " | " ++ padRight nm 44 ++ " | " ++
      padRight (if t.is_done = 1 then "DONE" else "PENDING") 8 ++ " " ++ t.date_added

/-- `Task::print_list`: one formatted line per task, in order; `none` when
any line panics in `truncate`. -/
def Task.print_list (tasks : List Task) : Option (List String) :=
  tasks.mapM printLine

/-! ### Command dispatcher (`main.rs`) -/

/-- The two lines `help()` prints (colour styling dropped, text kept). -/
def helpOutput : List String :=
  ["\nAvailable commands:",
   "\n        - add [TASK]\n            Adds new task(s)\n            Example: todo add \"Build a tree\"\n\n        - list\n            Lists all tasks\n            Example: todo list\n\n        - toggle [ID]\n            Toggles the status of a task (Done/Pending)\n            Exampple: todo toggle 2\n            \n        - rm [ID]\n            Removes a task\n            Example: todo rm 4\n\n        - sort\n            Sorts completed and uncompleted tasks\n\n        - reset\n            Deletes all tasks\n    "]

/-- Rust's `str::parse::<i32>()`: optional single sign, then one or more
ASCII digits, value within the `i32` range; anything else is `Err`. -/
def parseI32 (s : String) : Option Int :=
  let p : Int × List Char :=
    match s.data with
    | '+' :: rest => (1, rest)
    | '-' :: rest => (-1, rest)
    | l => (1, l)
  if p.2 = [] then none
  else if p.2.all Char.isDigit then
    let v : Int := p.1 * (p.2.foldl (fun a c => a * 10 + (c.toNat - 48)) 0 : Nat)
    if -2147483648 ≤ v ∧ v ≤ 2147483647 then some v else none
  else none

example : parseI32 "17" = some 17 := by decide
example : parseI32 "-4" = some (-4) := by decide
example : parseI32 "x1" = none := by decide
example : parseI32 "" = none := by decide

/-- Observable outcome of one process invocation of `main`. -/
inductive RunOutcome
  /-- `get_connection()` failed; the `?` propagates the storage error out of
  `main`, which terminates the process with a failure indication. -/
  | storageError : RunOutcome
  /-- A Rust panic (out-of-bounds index or `truncate` slice panic). -/
  | panicked : RunOutcome
  /-- Normal termination: process exit code, final table state, and the
  lines printed to stdout. -/
  | normal (exit : Int) (store : Store) (output : List String) : RunOutcome
deriving Repr, DecidableEq

/-- `main` from `main.rs`.  `connOk`/`s` model the outcome of
`get_connection()` — which runs first, before any argument is examined;
`args` is the full argument vector including the program name; `confirm` is
the result of the interactive `Confirm` prompt (`some b` for `Ok(b)`,
`none` for `Err(_)`); `now` is the timestamp SQLite would assign. -/
def runMain (connOk : Bool) (s : Store) (args : List String)
    (confirm : Option Bool) (now : String) : RunOutcome :=
  if connOk = false then .storageError
  else if args.length = 1 then
    .normal 1 s ("No arguments were passed!" :: helpOutput)
  else if args.length < 2 then .panicked
  else if args.getD 1 "" = "add" then
    if String.intercalate " " (args.drop 2) = "" then .normal 1 s helpOutput
    else .normal 0 (Task.add s (String.intercalate " " (args.drop 2)) now) []
  else if args.getD 1 "" = "list" then
    if (Task.list s false).isEmpty then .normal 0 s ["No tasks found."]
    else
      match Task.print_list (Task.list s false) with
      | some lines => .normal 0 s ("To-Do List (sorted by id):" :: lines)
      | none => .panicked
  else if args.getD 1 "" = "mark" then
    if args.length < 3 then .normal 1 s helpOutput
    else
      match parseI32 (args.getD 2 "") with
      | none => .normal 1 s helpOutput
      | some id => .normal 0 (Task.toggle s id).store (Task.toggle s id).output
  else if args.getD 1 "" = "reset" then
    match confirm with
    | some true =>
      .normal 0 (Task.reset s) ["Database reset. All tasks have been deleted."]
    | some false => .normal 0 s ["Reset aborted."]
    | none => .normal 0 s ["Error processing input."]
  else if args.getD 1 "" = "rm" then
    if args.length < 3 then .normal 1 s helpOutput
    else
      match parseI32 (args.getD 2 "") with
      | none => .normal 1 s helpOutput
      | some id => .normal 0 (Task.rm s id).store (Task.rm s id).output
  else if args.getD 1 "" = "sort" then .normal 0 s []
  else .normal 0 s helpOutput

/-- A usage error in the sense of the dispatcher: no arguments beyond the
program name, empty joined text for `add`, or a missing or non-integer id
for `mark`/`rm`. -/
def usageError (args : List String) : Prop :=
  args.length = 1 ∨
  (args.getD 1 "" = "add" ∧ String.intercalate " " (args.drop 2) = "") ∨
  ((args.getD 1 "" = "mark" ∨ args.getD 1 "" = "rm") ∧
    (args.length < 3 ∨ parseI32 (args.getD 2 "") = none))

instance (args : List String) : Decidable (usageError args) := by
  unfold usageError; infer_instance

/-! ### The sequence of store operations, for reachability -/

/-- One store operation, as named in the spec's Task Store table. -/
inductive Op
  | add (name now : String)
  | list (sort_by_status : Bool)
  | toggle (id : Int)
  | rm (id : Int)
  | reset
deriving Repr, DecidableEq

/-- Apply one store operation to a state (`list` reads but never writes). -/
def applyOp (s : Store) : Op → Store
  | .add name now => Task.add s name now
  | .list _ => s
  | .toggle id => (Task.toggle s id).store
  | .rm id => (Task.rm s id).store
  | .reset => Task.reset s

/-- The empty store: no rows, no `sqlite_sequence` entry. -/
def emptyStore : Store := { rows := [], seq := 0 }

/-- State reached from the empty store by a sequence of operations. -/
def runOps (ops : List Op) : Store :=
  ops.foldl applyOp emptyStore

/-- A sample one-row table, used to instantiate theorems with hypotheses. -/
def sampleTask : Task :=
  { id := 1, name := "Buy milk", date_added := "2024-01-01", is_done := 0 }

/-- A sample store holding `sampleTask`, with the sequence counter at 1. -/
def sampleStore : Store := { rows := [sampleTask], seq := 1 }

/-! ### Helper lemmas -/

theorem map_eq_self_of {α : Type} {f : α → α} {l : List α}
    (h : ∀ x ∈ l, f x = x) : l.map f = l := by
  induction l with
  | nil => rfl
  | cons a t ih =>
    simp only [List.map_cons, h a (by simp)]
    rw [ih fun x hx => h x (by simp [hx])]

theorem foldl_max_le_init : ∀ (rows : List Task) (init : Int),
    init ≤ rows.foldl (fun m t => max m t.id) init
  | [], _ => le_refl _
  | r :: rs, init =>
    le_trans (le_max_left init r.id) (foldl_max_le_init rs (max init r.id))

theorem le_foldl_max : ∀ (rows : List Task) (init : Int) (t : Task),
    t ∈ rows → t.id ≤ rows.foldl (fun m t => max m t.id) init
  | r :: rs, init, t, h => by
    rcases List.mem_cons.mp h with rfl | h'
    · exact le_trans (le_max_right init t.id) (foldl_max_le_init rs _)
    · exact le_foldl_max rs _ t h'

theorem le_maxId {rows : List Task} {t : Task} (h : t ∈ rows) :
    t.id ≤ maxId rows :=
  le_foldl_max rows 0 t h

/-! ### The claims -/

/-- Claim C4: for every store state and every id of an existing task,
applying `toggle(id)` twice in succession leaves that task's `is_done`
field equal to its value before the first toggle (here: the whole row list
is restored, since `1 - (1 - x) = x` over the SQLite integers). -/
theorem C4_toggle_involution (s : Store) (id : Int) (t : Task)
    (ht : t ∈ s.rows) (hid : t.id = id) :
    ((Task.toggle (Task.toggle s id).store id).store).rows = s.rows := by
  simp only [Task.toggle, List.map_map]
  apply map_eq_self_of
  intro r _
  cases r with
  | mk i nm d done =>
    by_cases h : i = id <;> simp [Function.comp, Task.mk.injEq, h]

/-- Witness for C4 at a concrete one-row store. -/
theorem C4_witness :
    (sampleTask ∈ sampleStore.rows ∧ sampleTask.id = 1) ∧
    ((Task.toggle (Task.toggle sampleStore 1).store 1).store).rows =
      sampleStore.rows :=
  ⟨⟨by decide, by decide⟩, C4_toggle_involution sampleStore 1 sampleTask (by decide) (by decide)⟩

/-- Claim C5: for every store state and every id not present in the table,
`toggle(id)` and `rm(id)` each affect zero rows, leave every existing row
completely unchanged, report the outcome as informational text (the
not-found line) rather than an error, and the corresponding `mark`/`rm`
process invocation still exits 0. -/
theorem C5_missing_id_noop (s : Store) (id : Int)
    (h : ∀ t ∈ s.rows, t.id ≠ id) :
    Task.toggle s id =
      { store := s, affected := 0,
        output := ["No task found with id: " ++ toString id] } ∧
    Task.rm s id =
      { store := s, affected := 0,
        output := ["No task found with id: " ++ toString id] } ∧
    (∀ (prog idStr now : String) (confirm : Option Bool),
      parseI32 idStr = some id →
      runMain true s [prog, "mark", idStr] confirm now =
        .normal 0 s ["No task found with id: " ++ toString id]) ∧
    (∀ (prog idStr now : String) (confirm : Option Bool),
      parseI32 idStr = some id →
      runMain true s [prog, "rm", idStr] confirm now =
        .normal 0 s ["No task found with id: " ++ toString id]) := by
  have hmap : (s.rows.map fun t =>
      if t.id = id then { t with is_done := 1 - t.is_done } else t) = s.rows :=
    map_eq_self_of fun t ht => if_neg (h t ht)
  have hfil : (s.rows.filter fun t => t.id = id) = [] :=
    List.filter_eq_nil_iff.mpr fun t ht => by simp [h t ht]
  have hfil2 : (s.rows.filter fun t => t.id ≠ id) = s.rows :=
    List.filter_eq_self.mpr fun t ht => by simp [h t ht]
  have htog : Task.toggle s id =
      { store := s, affected := 0,
        output := ["No task found with id: " ++ toString id] } := by
    simp only [Task.toggle, hmap, hfil]
    rfl
  have hrm : Task.rm s id =
      { store := s, affected := 0,
        output := ["No task found with id: " ++ toString id] } := by
    simp only [Task.rm, hfil, hfil2]
    rfl
  refine ⟨htog, hrm, ?_, ?_⟩
  · intro prog idStr now confirm hp
    simp [runMain, hp, htog]
  · intro prog idStr now confirm hp
    simp [runMain, hp, hrm]

/-- Witness for C5: toggling and removing id 2 in a store whose only row
has id 1. -/
theorem C5_witness :
    (∀ t ∈ sampleStore.rows, t.id ≠ 2) ∧
    (Task.toggle sampleStore 2 =
      { store := sampleStore, affected := 0,
        output := ["No task found with id: " ++ toString (2 : Int)] } ∧
    Task.rm sampleStore 2 =
      { store := sampleStore, affected := 0,
        output := ["No task found with id: " ++ toString (2 : Int)] } ∧
    (∀ (prog idStr now : String) (confirm : Option Bool),
      parseI32 idStr = some 2 →
      runMain true sampleStore [prog, "mark", idStr] confirm now =
        .normal 0 sampleStore ["No task found with id: " ++ toString (2 : Int)]) ∧
    (∀ (prog idStr now : String) (confirm : Option Bool),
      parseI32 idStr = some 2 →
      runMain true sampleStore [prog, "rm", idStr] confirm now =
        .normal 0 sampleStore ["No task found with id: " ++ toString (2 : Int)])) :=
  ⟨by decide, C5_missing_id_noop sampleStore 2 (by decide)⟩

/-- Claim C6: for every store state, `reset()` deletes all rows and resets
the auto-increment counter, so that an immediately following `add` assigns
id 1. -/
theorem C6_reset_counter (s : Store) (name now : String) :
    Task.reset s = emptyStore ∧
    (Task.add (Task.reset s) name now).rows =
      [{ id := 1, name := name, date_added := now, is_done := 0 }] ∧
    (Task.add (Task.reset s) name now).seq = 1 := by
  refine ⟨rfl, ?_, ?_⟩ <;>
    simp [Task.reset, Task.add, maxId, emptyStore]

/-! ### Truncation lemmas -/

theorem utf8Len_of_ascii {l : List Char} (h : ∀ c ∈ l, c.utf8Size = 1) :
    utf8Len l = l.length := by
  induction l with
  | nil => rfl
  | cons c cs ih =>
    simp only [utf8Len, List.map_cons, List.sum_cons, List.length_cons] at *
    rw [h c (by simp), ih fun x hx => h x (by simp [hx])]
    omega

theorem takeBytes_ascii : ∀ (l : List Char) (n : Nat),
    (∀ c ∈ l, c.utf8Size = 1) → n ≤ l.length →
    takeBytes l n = some (l.take n)
  | l, 0, _, _ => by cases l <;> rfl
  | [], n + 1, _, hle => by simp at hle
  | c :: cs, n + 1, h, hle => by
    have hc : c.utf8Size = 1 := h c (by simp)
    simp only [takeBytes, hc]
    rw [if_pos (by omega)]
    have : n + 1 - 1 = n := by omega
    rw [this, takeBytes_ascii cs n (fun x hx => h x (by simp [hx])) (by simpa using hle)]
    simp

/-- Claim C7: for the fixed maximum display width 44 used by `print_list`,
a name of at most 44 characters is returned by `truncate` unchanged, and a
longer name is truncated to its first 41 characters plus the 3-character
ellipsis, for a total length of exactly 44.  Stated for names made of
single-byte characters, where character positions and the byte positions
the code slices at coincide. -/
theorem C7_truncate_width (name : String)
    (h : ∀ c ∈ name.data, c.utf8Size = 1) :
    (name.length ≤ 44 → truncate name 44 = some name) ∧
    (44 < name.length →
      truncate name 44 = some (String.mk (name.data.take 41) ++ "...") ∧
      (String.mk (name.data.take 41) ++ "...").length = 44) := by
  have hlen : utf8Len name.data = name.length := utf8Len_of_ascii h
  have h44 : i32AsUsize 44 = 44 := by decide
  have hdl : name.length = name.data.length := rfl
  constructor
  · intro hle
    unfold truncate
    rw [if_neg (by omega)]
  · intro hgt
    constructor
    · unfold truncate
      rw [if_pos (by omega), if_neg (by omega), h44]
      rw [show (44 : Nat) - 3 = 41 from rfl]
      rw [takeBytes_ascii name.data 41 h (by omega)]
      rfl
    · simp only [String.length_append, String.length_mk, List.length_take]
      have : ("..." : String).length = 3 := rfl
      omega

/-- Witness for C7 at a concrete all-ASCII name. -/
theorem C7_witness :
    (∀ c ∈ ("Buy milk" : String).data, c.utf8Size = 1) ∧
    ((("Buy milk" : String).length ≤ 44 →
      truncate "Buy milk" 44 = some "Buy milk") ∧
    (44 < ("Buy milk" : String).length →
      truncate "Buy milk" 44 =
        some (String.mk (("Buy milk" : String).data.take 41) ++ "...") ∧
      (String.mk (("Buy milk" : String).data.take 41) ++ "...").length = 44)) :=
  ⟨by decide, C7_truncate_width "Buy milk" (by decide)⟩

/-- Claim C10: `truncate` is not total.  A string longer than `max` bytes
whose byte position `max - 3` falls inside a multi-byte UTF-8 character
panics on the slice, and `max < 3` with a longer input panics on the
underflowing subtraction `max_len - 3`; in general the call returns a value
exactly when the input already fits in `max` bytes or byte position
`max - 3` is a character boundary (with `max` at least 3). -/
theorem C10_truncate_not_total :
    truncate (String.mk ['α', 'α', 'α']) 4 = none ∧
    truncate "abcd" 2 = none ∧
    ∀ (s : String) (max : Int),
      (truncate s max).isSome = true ↔
        (utf8Len s.data ≤ i32AsUsize max ∨
          (3 ≤ i32AsUsize max ∧
            (takeBytes s.data (i32AsUsize max - 3)).isSome = true)) := by
  refine ⟨by decide, by decide, ?_⟩
  intro s max
  unfold truncate
  by_cases h1 : utf8Len s.data > i32AsUsize max
  · rw [if_pos h1]
    by_cases h2 : i32AsUsize max < 3
    · rw [if_pos h2]
      simp only [Option.isSome_none, Bool.false_eq_true, false_iff]
      push_neg
      exact ⟨by omega, fun h3 => absurd h3 (by omega)⟩
    · rw [if_neg h2]
      cases htb : takeBytes s.data (i32AsUsize max - 3) <;> simp [htb] <;> omega
  · rw [if_neg h1]
    simp only [Option.isSome_some, true_iff]
    exact Or.inl (by omega)

/-! ### The is_done invariant -/

/-- Every row of the store has a boolean-as-integer `is_done`. -/
def goodStore (s : Store) : Prop :=
  ∀ t ∈ s.rows, t.is_done = 0 ∨ t.is_done = 1

theorem goodStore_applyOp {s : Store} (h : goodStore s) :
    ∀ op, goodStore (applyOp s op)
  | .add name now => by
    intro t ht
    have ht' : t ∈ s.rows ++
        [{ id := max s.seq (maxId s.rows) + 1, name := name,
           date_added := now, is_done := 0 }] := ht
    rcases List.mem_append.mp ht' with h1 | h1
    · exact h t h1
    · rw [List.mem_singleton.mp h1]
      exact Or.inl rfl
  | .list _ => h
  | .toggle id => by
    intro t ht
    have ht' : t ∈ s.rows.map fun r =>
        if r.id = id then { r with is_done := 1 - r.is_done } else r := ht
    rcases List.mem_map.mp ht' with ⟨r, hr, rfl⟩
    by_cases hc : r.id = id
    · rw [if_pos hc]
      rcases h r hr with h0 | h0 <;> rw [h0] <;> norm_num
    · rw [if_neg hc]
      exact h r hr
  | .rm id => by
    intro t ht
    have ht' : t ∈ s.rows.filter fun r => r.id ≠ id := ht
    exact h t (List.mem_filter.mp ht').1
  | .reset => by
    intro t ht
    exact absurd ht (List.not_mem_nil t)

theorem goodStore_foldl : ∀ (ops : List Op) (s : Store),
    goodStore s → goodStore (ops.foldl applyOp s)
  | [], _, h => h
  | op :: ops, s, h => goodStore_foldl ops _ (goodStore_applyOp h op)

/-- Claim C9: in every state reachable from the empty store by any
sequence of the five store operations, every row's `is_done` field is
either 0 or 1. -/
theorem C9_is_done_boolean (ops : List Op) (t : Task)
    (ht : t ∈ (runOps ops).rows) : t.is_done = 0 ∨ t.is_done = 1 :=
  goodStore_foldl ops emptyStore (fun x hx => absurd hx (List.not_mem_nil x)) t ht

/-- Witness for C9 after a concrete `add`. -/
theorem C9_witness :
    ({ id := 1, name := "Buy milk", date_added := "ts", is_done := 0 } : Task) ∈
      (runOps [Op.add "Buy milk" "ts"]).rows ∧
    ((0 : Int) = 0 ∨ (0 : Int) = 1) :=
  ⟨by decide,
   C9_is_done_boolean [Op.add "Buy milk" "ts"]
     { id := 1, name := "Buy milk", date_added := "ts", is_done := 0 } (by decide)⟩

/-- Claim C2: for every non-empty name and every store state, `add(name)`
followed by `list()` yields exactly one task not present before, whose name
equals the input, whose `is_done` is 0, and whose id is strictly greater
than every id previously assigned (recorded in the sequence counter) and
than every id currently in the table. -/
theorem C2_add_then_list (s : Store) (name now : String) (hname : name ≠ "") :
    ∃ t : Task,
      (Task.list (Task.add s name now) false).Perm (t :: s.rows) ∧
      t ∉ s.rows ∧
      t.name = name ∧ t.is_done = 0 ∧
      s.seq < t.id ∧
      ∀ r ∈ s.rows, r.id < t.id := by
  refine ⟨⟨max s.seq (maxId s.rows) + 1, name, now, 0⟩, ?_, ?_, rfl, rfl, ?_, ?_⟩
  · have h1 : (Task.list (Task.add s name now) false).Perm
        ((Task.add s name now).rows) := List.perm_insertionSort _ _
    have h2 : (Task.add s name now).rows = s.rows ++
        [⟨max s.seq (maxId s.rows) + 1, name, now, 0⟩] := rfl
    rw [h2] at h1
    exact h1.trans (List.perm_append_singleton _ _)
  · intro hmem
    have h1 : max s.seq (maxId s.rows) + 1 ≤ maxId s.rows := le_maxId hmem
    have h2 : maxId s.rows ≤ max s.seq (maxId s.rows) := le_max_right _ _
    omega
  · show s.seq < max s.seq (maxId s.rows) + 1
    have := le_max_left s.seq (maxId s.rows)
    omega
  · intro r hr
    show r.id < max s.seq (maxId s.rows) + 1
    have h1 := le_maxId hr
    have h2 := le_max_right s.seq (maxId s.rows)
    omega

/-- Witness for C2: adding to the empty store. -/
theorem C2_witness :
    ("Buy milk" : String) ≠ "" ∧
    ∃ t : Task,
      (Task.list (Task.add emptyStore "Buy milk" "ts") false).Perm
        (t :: emptyStore.rows) ∧
      t ∉ emptyStore.rows ∧
      t.name = "Buy milk" ∧ t.is_done = 0 ∧
      emptyStore.seq < t.id ∧
      ∀ r ∈ emptyStore.rows, r.id < t.id :=
  ⟨by decide, C2_add_then_list emptyStore "Buy milk" "ts" (by decide)⟩

/-- Claim C3: under the primary-key uniqueness of ids, `list` with
`sort_by_status = true` returns a permutation of the table in which no done
task precedes a pending one and ids strictly ascend within each status
group; `list` with `sort_by_status = false` returns the table in strictly
ascending id order. -/
theorem C3_list_ordering (s : Store)
    (hpk : s.rows.Pairwise fun a b => a.id ≠ b.id) :
    ((Task.list s true).Perm s.rows ∧
      (Task.list s true).Pairwise (fun a b => ¬(a.is_done = 1 ∧ b.is_done = 0)) ∧
      (Task.list s true).Pairwise (fun a b => a.is_done = b.is_done → a.id < b.id)) ∧
    ((Task.list s false).Perm s.rows ∧
      (Task.list s false).Pairwise fun a b => a.id < b.id) := by
  have hperm1 : (Task.list s true).Perm s.rows := List.perm_insertionSort _ _
  have hperm2 : (Task.list s false).Perm s.rows := List.perm_insertionSort _ _
  have hsor1 : (Task.list s true).Pairwise (Task.sqlLe true) :=
    List.sorted_insertionSort _ _
  have hsor2 : (Task.list s false).Pairwise (Task.sqlLe false) :=
    List.sorted_insertionSort _ _
  have hne1 : (Task.list s true).Pairwise (fun a b => a.id ≠ b.id) :=
    (List.Perm.pairwise_iff (fun hxy => Ne.symm hxy) hperm1).mpr hpk
  have hne2 : (Task.list s false).Pairwise (fun a b => a.id ≠ b.id) :=
    (List.Perm.pairwise_iff (fun hxy => Ne.symm hxy) hperm2).mpr hpk
  refine ⟨⟨hperm1, ?_, ?_⟩, hperm2, ?_⟩
  · refine hsor1.imp fun {a b} hab => ?_
    simp only [Task.sqlLe] at hab
    rintro ⟨h1, h0⟩
    rcases hab with h | ⟨h, _⟩ <;> omega
  · refine (hsor1.and hne1).imp fun {a b} hab => ?_
    obtain ⟨hab, hne⟩ := hab
    simp only [Task.sqlLe] at hab
    intro heq
    rcases hab with h | ⟨h, hle⟩ <;> omega
  · refine (hsor2.and hne2).imp fun {a b} hab => ?_
    obtain ⟨hab, hne⟩ := hab
    simp only [Task.sqlLe] at hab
    omega

/-- A sample two-row table with one pending and one done task. -/
def sampleStore2 : Store :=
  { rows := [sampleTask,
             { id := 2, name := "Walk dog", date_added := "2024-01-02", is_done := 1 }],
    seq := 2 }

/-- Witness for C3 on the two-row sample table. -/
theorem C3_witness :
    sampleStore2.rows.Pairwise (fun a b => a.id ≠ b.id) ∧
    (((Task.list sampleStore2 true).Perm sampleStore2.rows ∧
      (Task.list sampleStore2 true).Pairwise
        (fun a b => ¬(a.is_done = 1 ∧ b.is_done = 0)) ∧
      (Task.list sampleStore2 true).Pairwise
        (fun a b => a.is_done = b.is_done → a.id < b.id)) ∧
    ((Task.list sampleStore2 false).Perm sampleStore2.rows ∧
      (Task.list sampleStore2 false).Pairwise fun a b => a.id < b.id)) :=
  ⟨by decide, C3_list_ordering sampleStore2 (by decide)⟩

/-! ### Dispatcher claims -/

theorem getD_one_of_short (args : List String) (h : args.length < 2) :
    args.getD 1 "" = "" := by
  match args with
  | [] => rfl
  | [_] => rfl
  | _ :: _ :: t => simp at h; omega

/-- Claim C8: for every store state with at least one row, a `reset`
command whose confirmation answers no, or whose confirmation read fails,
performs no store operation: the table is left exactly as it was, the
outcome is an informational line, and the process exits 0. -/
theorem C8_reset_declined (s : Store) (h : s.rows ≠ []) (prog now : String) :
    runMain true s [prog, "reset"] (some false) now =
      .normal 0 s ["Reset aborted."] ∧
    runMain true s [prog, "reset"] none now =
      .normal 0 s ["Error processing input."] :=
  ⟨rfl, rfl⟩

/-- Witness for C8 on the one-row sample table. -/
theorem C8_witness :
    sampleStore.rows ≠ [] ∧
    (runMain true sampleStore ["todo", "reset"] (some false) "ts" =
      .normal 0 sampleStore ["Reset aborted."] ∧
    runMain true sampleStore ["todo", "reset"] none "ts" =
      .normal 0 sampleStore ["Error processing input."]) :=
  ⟨by decide, C8_reset_declined sampleStore (by decide) "todo" "ts"⟩

/-- Claim C1 fails on the code: `main` calls `get_connection()` before it
examines the arguments, so a no-argument invocation — a usage error — still
opens storage, and a storage failure there surfaces as a storage error on
that run, contradicting "never opens ... and never surfaces a storage
error on such a run". -/
theorem C1_counterexample :
    usageError ["todo"] ∧
    runMain false emptyStore ["todo"] none "ts" = .storageError :=
  ⟨by decide, rfl⟩

/-- Claim C1 as amended: usage errors are detected only after
`get_connection` has run.  When the connection succeeds, a usage-error
invocation prints exactly the help text (preceded by the no-arguments
notice when no arguments were given), exits 1, and performs no operation on
the table (the store is unchanged); but storage is opened first on every
invocation, and a connection failure surfaces as a storage error even on a
usage-error run. -/
theorem C1_usage_after_connection (s : Store) (args : List String)
    (confirm : Option Bool) (now : String) (h : usageError args) :
    (args.length = 1 →
      runMain true s args confirm now =
        .normal 1 s ("No arguments were passed!" :: helpOutput)) ∧
    (args.length ≠ 1 →
      runMain true s args confirm now = .normal 1 s helpOutput) ∧
    runMain false s args confirm now = .storageError := by
  refine ⟨fun h1 => by simp [runMain, h1], ?_, rfl⟩
  intro h1
  have hlen2 : 2 ≤ args.length := by
    rcases h with h' | ⟨hcmd, _⟩ | ⟨hcmd, _⟩
    · exact absurd h' h1
    · by_contra hl
      push_neg at hl
      rw [getD_one_of_short args (by omega)] at hcmd
      exact absurd hcmd (by decide)
    · by_contra hl
      push_neg at hl
      rcases hcmd with hc | hc <;> rw [getD_one_of_short args (by omega)] at hc <;>
        exact absurd hc (by decide)
  have hnlt : ¬ args.length < 2 := by omega
  rcases h with h' | ⟨hcmd, hsuf⟩ | ⟨hcmd, harg⟩
  · exact absurd h' h1
  · unfold runMain; rw [hcmd, hsuf]; simp [h1, hnlt]
  · rcases hcmd with hc | hc <;> rcases harg with ha | ha
    · unfold runMain; rw [hc]; simp [h1, hnlt, ha]
    · by_cases h3 : args.length < 3
      · unfold runMain; rw [hc]; simp [h1, hnlt, h3]
      · unfold runMain; rw [hc, ha]; simp [h1, hnlt, h3]
    · unfold runMain; rw [hc]; simp [h1, hnlt, ha]
    · by_cases h3 : args.length < 3
      · unfold runMain; rw [hc]; simp [h1, hnlt, h3]
      · unfold runMain; rw [hc, ha]; simp [h1, hnlt, h3]

/-- Witness for C1 as amended: `add` with empty joined text. -/
theorem C1_witness :
    usageError ["todo", "add"] ∧
    (((["todo", "add"] : List String).length = 1 →
        runMain true emptyStore ["todo", "add"] none "ts" =
          .normal 1 emptyStore ("No arguments were passed!" :: helpOutput)) ∧
      ((["todo", "add"] : List String).length ≠ 1 →
        runMain true emptyStore ["todo", "add"] none "ts" =
          .normal 1 emptyStore helpOutput) ∧
      runMain false emptyStore ["todo", "add"] none "ts" = .storageError) :=
  ⟨by decide, C1_usage_after_connection emptyStore ["todo", "add"] none "ts" (by decide)⟩

end Todo
